import Mathlib

set_option maxRecDepth 100000

/-!
Verification development for the insight-generation pipeline implemented in
`src/insights_automation.py` of the PPT_Automation repository.

The Python source is shallowly embedded: each relevant function is translated
into an executable Lean definition.  Machine floats only occur in the source as
exact conversions of decimal digit strings followed by comparisons and
decimal re-rendering; these are modelled with exact rational arithmetic on
numerator/denominator pairs (the rendering uses round-half-even, the rounding
CPython applies to format specifiers such as .1f).  Strings are modelled as
`String`/`List Char`; each regular-expression transform of the source is
translated into a dedicated scanner implementing that regex's matching
semantics (leftmost match, greediness, word boundaries) for its pattern.
-/

/-! ### Basic character helpers (Python `str.strip`, `\s`, `\w`) -/

/-- Whitespace characters recognised by Python's `str.strip` and by `\s`
for the ASCII inputs handled here. -/
def isPyWS (c : Char) : Bool :=
  c = ' ' || c = '\t' || c = '\n' || c = '\r' || c = '\x0b' || c = '\x0c'

/-- Word characters for the regex class `\w` (ASCII). -/
def isWordChar (c : Char) : Bool := c.isAlphanum || c = '_'

/-- Left-and-right whitespace trim on character lists (Python `str.strip`). -/
def pyStripL (l : List Char) : List Char :=
  ((l.dropWhile isPyWS).reverse.dropWhile isPyWS).reverse

/-- Python `str.strip` on strings. -/
def pyStrip (s : String) : String := String.mk (pyStripL s.toList)

/-- Case-insensitive character comparison (regex flag `re.IGNORECASE`). -/
def ciEq (a b : Char) : Bool := a.toLower = b.toLower

/-! ### Decimal rendering (CPython `str(int(..))`, `f"{..:.0f}"`, `f"{..:.1f}"`) -/

/-- The decimal digit character for `n % 10`. -/
def digitChar (n : ℕ) : Char := Char.ofNat (48 + n % 10)

/-- Decimal digits of a natural number, most significant first (fuelled). -/
def natToChars : ℕ → ℕ → List Char
  | 0, _ => []
  | fuel+1, n => if n < 10 then [digitChar n] else natToChars fuel (n / 10) ++ [digitChar (n % 10)]

/-- Decimal rendering of a natural number, as CPython renders integers. -/
def natToStr (n : ℕ) : String := String.mk (natToChars (n + 1) n)

/-- Decimal rendering of an integer (Python `str(int_value)`). -/
def intToStr (i : ℤ) : String := (if i < 0 then "-" else "") ++ natToStr i.natAbs

/-- Round `n / d` (for `d > 0`) to the nearest integer, ties to even: the
rounding CPython's float formatting applies. -/
def roundHalfEven (n d : ℤ) : ℤ :=
  let f := Int.fdiv n d
  let r := n - f * d
  if 2 * r < d then f
  else if d < 2 * r then f + 1
  else if f % 2 = 0 then f else f + 1

/-- Exact-rational model of CPython `f"{q / scale:.1f}"`: one digit after the
decimal point, round half to even, sign taken from the value. -/
def renderOneDec (q : ℚ) (scale : ℕ) : String :=
  let m : ℕ := (roundHalfEven (10 * (q.num.natAbs : ℤ)) ((q.den : ℤ) * (scale : ℤ))).toNat
  (if q.num < 0 then "-" else "") ++ natToStr (m / 10) ++ "." ++ natToStr (m % 10)

/-- Exact-rational model of CPython `f"{q / scale:.0f}"`: no decimal point,
round half to even, sign taken from the value. -/
def renderZeroDec (q : ℚ) (scale : ℕ) : String :=
  let m : ℕ := (roundHalfEven (q.num.natAbs : ℤ) ((q.den : ℤ) * (scale : ℤ))).toNat
  (if q.num < 0 then "-" else "") ++ natToStr m

/-- A rational from an integer without normalisation (kernel-evaluable). -/
def intRat (n : ℤ) : ℚ := Rat.mk' n 1 one_ne_zero (Nat.coprime_one_right _)

/-! ### `format_large_number` (src/insights_automation.py lines 446-455)

The Python function receives a number string, strips commas and `K`/`M`
markers, converts to float, and branches on magnitude.  The numeric core is
modelled on an exact rational `q` (the tokens fed to it by the parser are
comma-grouped integer strings, whose float conversion is exact); the
magnitude tests `abs(num) >= 1_000_000` and `abs(num) >= 1_000` become
numerator/denominator inequalities. -/

def formatLargeNumber (q : ℚ) : String :=
  if 1000000 * q.den ≤ q.num.natAbs then renderOneDec q 1000000 ++ "M"
  else if 1000 * q.den ≤ q.num.natAbs then renderZeroDec q 1000 ++ "K"
  else if q.den = 1 then intToStr q.num
  else renderOneDec q 1

/-! ### `format_percentage` (src/insights_automation.py lines 457-476)

`perc_match.group(1)` is the full matched percentage substring, `group(2)`
its numeric part; the function returns a qualitative phrase outside the
±120 band and the original substring otherwise. -/

def formatPercentage (full : String) (num : ℚ) : String :=
  if 120 < num then "a significant increase"
  else if num < -120 then "a significant decrease"
  else full

/-! ### Substring utilities -/

/-- Does `l` start with the character sequence `pat` (case-sensitive)? -/
def startsWithSeq : List Char → List Char → Bool
  | [], _ => true
  | _ :: _, [] => false
  | p :: ps, c :: cs => p = c && startsWithSeq ps cs

/-- Does `l` contain `pat` as a contiguous subsequence? -/
def containsSeq (pat : List Char) : List Char → Bool
  | [] => pat.isEmpty
  | c :: rest => startsWithSeq pat (c :: rest) || containsSeq pat rest

/-- Does string `s` contain string `pat`? -/
def strContains (pat s : String) : Bool := containsSeq pat.toList s.toList

/-- If `l` starts with `pat` case-insensitively, the remainder after it. -/
def ciAfterLit : List Char → List Char → Option (List Char)
  | [], l => some l
  | _ :: _, [] => none
  | p :: ps, c :: cs => if ciEq p c then ciAfterLit ps cs else none

/-- Does `l` start with `pat`, case-insensitively? -/
def startsWithCI (pat l : List Char) : Bool := (ciAfterLit pat l).isSome

/-- Index of the first case-insensitive occurrence of `pat` in `l`
(the scan `re.search` performs for a literal pattern under IGNORECASE). -/
def findCI (pat : List Char) : List Char → Option ℕ
  | [] => if startsWithCI pat [] then some 0 else none
  | c :: rest =>
      if startsWithCI pat (c :: rest) then some 0
      else (findCI pat rest).map (· + 1)

/-- Index of the last occurrence of character `ch` in `l`. -/
def lastIdxOf (ch : Char) (l : List Char) : Option ℕ :=
  (l.reverse.findIdx? (· = ch)).map (fun j => l.length - 1 - j)

/-! ### Marker extraction (`parse_llm_response` lines 659-680)

The source extracts a field with `re.search(marker + r"\s*(.*)", text,
IGNORECASE | MULTILINE | DOTALL)` and then deletes every match with
`re.sub(..., '')` followed by `.strip()`.  Under DOTALL the group `(.*)`
extends to the end of the string, so the extracted value is everything after
the marker, stripped, and the remaining text is the stripped prefix before
the first occurrence of the marker. -/

def extractMarker (marker l : List Char) : Option (String × List Char) :=
  (findCI marker l).map (fun i =>
    (String.mk (pyStripL (l.drop (i + marker.length))), pyStripL (l.take i)))

/-! ### Bracket-placeholder replacement (`parse_llm_response` line 689)

`re.sub(r'\[[^\]]*\]', 'N/A', text)`: each leftmost `[`, together with
everything up to and including the next `]`, is replaced by `N/A`;
a `[` with no subsequent `]` is left in place. -/

/-- Split at the first `]`: the part strictly before it and the part after. -/
def splitClose : List Char → Option (List Char × List Char)
  | [] => none
  | c :: rest =>
      if c = ']' then some ([], rest)
      else (splitClose rest).map (fun p => (c :: p.1, p.2))

def bracketScan : ℕ → List Char → List Char
  | 0, l => l
  | _+1, [] => []
  | fuel+1, c :: rest =>
      if c = '[' then
        match splitClose rest with
        | some p => 'N' :: '/' :: 'A' :: bracketScan fuel p.2
        | none => c :: rest
      else c :: bracketScan fuel rest

/-- Is there a `[` that is followed (anywhere later) by a `]`?  Equivalently,
does the text still contain a complete bracketed token `[...]` or the makings
of one. -/
def hasOpenThenClose : List Char → Bool
  | [] => false
  | c :: rest => (c = '[' && rest.any (· = ']')) || hasOpenThenClose rest

/-! ### Heading and label stripping (`parse_llm_response` lines 683-688)

Each of these is a `re.sub(..., '')` followed by `.strip()`.  The patterns
are anchored (`^`, and `$` for the closing fence); the two label patterns and
the Key-Highlights pattern carry `re.MULTILINE`, so they are tried at every
line start, and all their occurrences are removed. -/

/-- Consume the optional `(\*\*?)?` star group (greedy). -/
def afterStars (l : List Char) : List Char :=
  match l with
  | '*' :: '*' :: rest => rest
  | '*' :: rest => rest
  | _ => l

/-- Matcher for `^\s*(\*\*?)?Key Highlights:?(\*\*?)?\s*` at a line start:
returns the remainder after the match, or `none`. -/
def matchKeyHighlightsAt (l : List Char) : Option (List Char) :=
  let l2 := afterStars (l.dropWhile isPyWS)
  match ciAfterLit ("key highlights".toList) l2 with
  | none => none
  | some l3 =>
      let l4 := match l3 with | ':' :: r => r | _ => l3
      some ((afterStars l4).dropWhile isPyWS)

/-- For `[\w\s]+ <word>`: the greedy run backtracks to the last position `k`
inside the maximal `[\w\s]` run where a literal space is followed by the
(case-insensitive) word, with a nonempty `[\w\s]+` part before it. -/
def lastSpaceWordIdx (word run : List Char) : Option ℕ :=
  (List.range run.length).reverse.find? (fun k =>
    decide (1 ≤ k) && (run[k]? == some ' ') && startsWithCI word (run.drop (k + 1)))

/-- Matcher for `^\s*(\*\*?)?[\w\s]+ <word>:?(\*\*?)?\s*` at a line start
(`<word>` is `Insight` or `Performance`), under IGNORECASE. -/
def matchLabelAt (word : List Char) (l : List Char) : Option (List Char) :=
  let l2 := afterStars (l.dropWhile isPyWS)
  let run := l2.takeWhile (fun c => isWordChar c || isPyWS c)
  match lastSpaceWordIdx word run with
  | none => none
  | some k =>
      let l3 := l2.drop (k + 1 + word.length)
      let l4 := match l3 with | ':' :: r => r | _ => l3
      some ((afterStars l4).dropWhile isPyWS)

/-- `re.sub` driver for a `^`-anchored pattern under MULTILINE: the matcher is
tried at the string start and after every newline; matches are deleted and
scanning resumes after the match. -/
def lineScan (matcher : List Char → Option (List Char)) : ℕ → Bool → List Char → List Char
  | 0, _, l => l
  | _+1, _, [] => []
  | fuel+1, atStart, c :: rest =>
      if atStart then
        match matcher (c :: rest) with
        | some l' =>
            let consumed := (c :: rest).length - l'.length
            let lastC := ((c :: rest).take consumed).getLast?
            lineScan matcher fuel (lastC == some '\n') l'
        | none => c :: lineScan matcher fuel (c = '\n') rest
      else c :: lineScan matcher fuel (c = '\n') rest

/-- One MULTILINE label substitution followed by `.strip()`. -/
def lineSub (matcher : List Char → Option (List Char)) (l : List Char) : List Char :=
  pyStripL (lineScan matcher (l.length + 1) true l)

/-- `re.sub(r'^```text\s*', '', ·, flags=IGNORECASE).strip()` (line 683). -/
def stripFenceStart (l : List Char) : List Char :=
  match ciAfterLit ("```text".toList) l with
  | some rest => pyStripL (rest.dropWhile isPyWS)
  | none => pyStripL l

/-- `re.sub(r'\s*```$', '', ·, flags=IGNORECASE).strip()` (line 684): without
MULTILINE, `$` matches at the end of the string or just before a final
newline. -/
def stripFenceEnd (l : List Char) : List Char :=
  let r := l.reverse
  let core : Option (List Char) :=
    if startsWithSeq ("```".toList) r then some (r.drop 3)
    else
      match r with
      | '\n' :: r' => if startsWithSeq ("```".toList) r' then some (r'.drop 3) else none
      | _ => none
  match core with
  | some r' => pyStripL (r'.dropWhile isPyWS).reverse
  | none => pyStripL l

/-- `re.sub(r'^Provide a brief summary of.*\.\s*', '', ·, IGNORECASE).strip()`
(line 685): anchored at the string start only; `.*` cannot cross a newline,
and greediness selects the last `.` on the first line. -/
def stripInstructionEcho (l : List Char) : List Char :=
  match ciAfterLit ("provide a brief summary of".toList) l with
  | none => pyStripL l
  | some rest =>
      match lastIdxOf '.' (rest.takeWhile (fun c => c ≠ '\n')) with
      | none => pyStripL l
      | some k => pyStripL ((rest.drop (k + 1)).dropWhile isPyWS)

/-! ### Percentage normalisation (`parse_llm_response` lines 691-697)

`re.sub(r'(([+-]?\d+(?:\.\d+)?)(\s*%\s*(?:WoW)?\b))', format_percentage, ·,
flags=IGNORECASE)`.  The word boundary `\b` after the optional `WoW` forces
either a matched `WoW` followed by a non-word character (or the end), or a
match ending right before a word character; otherwise the candidate fails. -/

/-- Numeric value of a decimal digit list. -/
def charsToNat (l : List Char) : ℕ := l.foldl (fun a c => a * 10 + (c.toNat - 48)) 0

/-- The float value of `group(2)` (`[+-]?\d+(?:\.\d+)?`), as an exact
rational; digit-only inputs avoid rational normalisation. -/
def percentValue (sgn : Option Char) (ds fd : List Char) : ℚ :=
  let mag : ℚ :=
    if fd.isEmpty then intRat (charsToNat ds)
    else intRat ((charsToNat ds) * 10 ^ fd.length + charsToNat fd) / intRat (10 ^ fd.length)
  if sgn = some '-' then -mag else mag

/-- Attempt the percentage pattern at the head of `l`: on success, the
matched `group(1)` text, the numeric value of `group(2)`, and the rest. -/
def matchPercentAt (l : List Char) : Option (List Char × ℚ × List Char) :=
  let sgnSplit : Option Char × List Char :=
    match l with
    | '+' :: r => (some '+', r)
    | '-' :: r => (some '-', r)
    | _ => (none, l)
  let sgn := sgnSplit.1
  let l1 := sgnSplit.2
  let ds := l1.takeWhile Char.isDigit
  let l2 := l1.dropWhile Char.isDigit
  if ds.isEmpty then none
  else
    let fracSplit : List Char × List Char :=
      match l2 with
      | '.' :: r =>
          let fd := r.takeWhile Char.isDigit
          if fd.isEmpty then ([], l2) else (fd, r.dropWhile Char.isDigit)
      | _ => ([], l2)
    let fd := fracSplit.1
    let l3 := fracSplit.2
    let ws1 := l3.takeWhile isPyWS
    let l4 := l3.dropWhile isPyWS
    match l4 with
    | '%' :: l5 =>
        let ws2 := l5.takeWhile isPyWS
        let l6 := l5.dropWhile isPyWS
        let sgnChars : List Char := match sgn with | some c => [c] | none => []
        let fracChars : List Char := if fd.isEmpty then [] else '.' :: fd
        let value := percentValue sgn ds fd
        let noWow : Option (List Char × ℚ × List Char) :=
          match l6.head? with
          | some c =>
              if isWordChar c then
                some (sgnChars ++ ds ++ fracChars ++ ws1 ++ '%' :: ws2, value, l6)
              else none
          | none => none
        match ciAfterLit ("wow".toList) l6 with
        | some l7 =>
            match l7.head? with
            | none =>
                some (sgnChars ++ ds ++ fracChars ++ ws1 ++ '%' :: ws2 ++ l6.take 3, value, l7)
            | some c =>
                if isWordChar c then noWow
                else some (sgnChars ++ ds ++ fracChars ++ ws1 ++ '%' :: ws2 ++ l6.take 3, value, l7)
        | none => noWow
    | _ => none

/-- Left-to-right scan applying `format_percentage` to every match. -/
def percentScan : ℕ → List Char → List Char
  | 0, l => l
  | _+1, [] => []
  | fuel+1, c :: rest =>
      match matchPercentAt (c :: rest) with
      | some (g1, v, l') => (formatPercentage (String.mk g1) v).toList ++ percentScan fuel l'
      | none => c :: percentScan fuel rest

/-! ### Number abbreviation (`parse_llm_response` lines 699-703)

`re.sub(r'(?<![KM])\b(\d{1,3}(?:,\d{3})+|\d{4,})\b(?![KM])',
lambda m: format_large_number(m.group(1)), ·)` (case-sensitive).  The
lookarounds are subsumed by the word boundaries (K and M are word
characters), so a match is a maximal digit/comma token at word boundaries
matching one of the two alternatives. -/

/-- `\b` after a token: the next character is absent or a non-word char. -/
def boundaryOKAfter (l : List Char) : Bool :=
  match l.head? with
  | none => true
  | some c => !isWordChar c

/-- Number of leading `,ddd` groups (each a comma plus exactly 3 digits). -/
def commaGroups : List Char → ℕ
  | ',' :: a :: b :: c :: rest =>
      if a.isDigit && b.isDigit && c.isDigit then 1 + commaGroups rest else 0
  | _ => 0

/-- Attempt the number-token pattern at the head of `l` (which is assumed to
sit at a word boundary): on success the token length and the rest. -/
def matchNumTokenAt (l : List Char) : Option (ℕ × List Char) :=
  let ds := (l.takeWhile Char.isDigit).length
  if ds = 0 then none
  else
    let alt1 : Option ℕ :=
      if ds ≤ 3 then
        let g := commaGroups (l.drop ds)
        if g = 0 then none
        else if boundaryOKAfter (l.drop (ds + 4 * g)) then some (ds + 4 * g)
        else if 2 ≤ g then some (ds + 4 * (g - 1))
        else none
      else none
    match alt1 with
    | some k => some (k, l.drop k)
    | none =>
        if 4 ≤ ds && boundaryOKAfter (l.drop ds) then some (ds, l.drop ds) else none

/-- `format_large_number` applied to a digit/comma token, as the source's
lambda does: commas are removed and the digits parsed. -/
def formatNumToken (tok : List Char) : List Char :=
  (formatLargeNumber (intRat (charsToNat (tok.filter (fun c => c ≠ ','))))).toList

/-- Left-to-right scan; `atBoundary` records whether the previous original
character was absent or a non-word character (the leading `\b`). -/
def numberScan : ℕ → Bool → List Char → List Char
  | 0, _, l => l
  | _+1, _, [] => []
  | fuel+1, atBoundary, c :: rest =>
      if atBoundary then
        match matchNumTokenAt (c :: rest) with
        | some (k, l') => formatNumToken ((c :: rest).take k) ++ numberScan fuel false l'
        | none => c :: numberScan fuel (!isWordChar c) rest
      else c :: numberScan fuel (!isWordChar c) rest

/-- `re.sub(r'\n{2,}', '\n', ·)` (line 705): collapse newline runs. -/
def collapseNL : ℕ → List Char → List Char
  | 0, l => l
  | _+1, [] => []
  | fuel+1, c :: rest =>
      if c = '\n' then '\n' :: collapseNL fuel (rest.dropWhile (· = '\n'))
      else c :: collapseNL fuel rest

/-! ### `parse_llm_response` (src/insights_automation.py lines 637-711) -/

/-- The structured result of `parse_llm_response`.  In chart-specific mode
the source returns a dictionary with only the `main_insight` key; that is
modelled by `none` in the two optional fields. -/
structure ParsedInsight where
  main_insight : String
  summary_phrase : Option String
  context_snippet : Option String
deriving DecidableEq, Repr

/-- The context-snippet marker line prefix for slides 3, 4, 5
(`parse_llm_response` lines 660-664). -/
def contextMarker (slideNum : ℕ) : Option (List Char) :=
  if slideNum = 3 then some ("Context Snippet for Slide 2 - Organic OS:".toList)
  else if slideNum = 4 then some ("Context Snippet for Slide 2 - Owned Campaign:".toList)
  else if slideNum = 5 then some ("Context Snippet for Slide 2 - Paid Partner:".toList)
  else none

/-- The cleanup/normalisation chain applied to the main insight
(`parse_llm_response` lines 683-705), in source order. -/
def cleanMainInsight (l : List Char) : List Char :=
  let s1 := stripFenceStart l
  let s2 := stripFenceEnd s1
  let s3 := stripInstructionEcho s2
  let s4 := lineSub matchKeyHighlightsAt s3
  let s5 := lineSub (matchLabelAt ("insight".toList)) s4
  let s6 := lineSub (matchLabelAt ("performance".toList)) s5
  let s7 := pyStripL (bracketScan (s6.length + 1) s6)
  let s8 := percentScan (s7.length + 1) s7
  let s9 := numberScan (s8.length + 1) true s8
  pyStripL (collapseNL (s9.length + 1) s9)

/-- `parse_llm_response(slide_num, response_text, is_chart_specific)`. -/
def parseLLMResponse (slideNum : ℕ) (responseText : Option String)
    (isChartSpecific : Bool) : ParsedInsight :=
  match responseText with
  | none => ⟨"[Error: No response from LLM]", none, none⟩
  | some t =>
      if t.isEmpty then ⟨"[Error: No response from LLM]", none, none⟩
      else
        let l0 := t.toList
        let ctxStep : Option String × List Char :=
          if isChartSpecific then (none, l0)
          else
            match contextMarker slideNum with
            | none => (none, l0)
            | some mrk =>
                match extractMarker mrk l0 with
                | some p => (some p.1, p.2)
                | none => (none, l0)
        let sumStep : Option String × List Char :=
          if isChartSpecific then (none, ctxStep.2)
          else
            match extractMarker ("Summary Phrase:".toList) ctxStep.2 with
            | some p => (some p.1, p.2)
            | none => (none, ctxStep.2)
        ⟨String.mk (cleanMainInsight sumStep.2), sumStep.1, ctxStep.1⟩

/-! ### Slide-2 context interpolation (`build_prompt_for_slide` lines 543-558,
`generate_and_paste_insights` lines 921 and 1045)

The orchestrator initialises `slide_2_context_snippets` to a dictionary with
the three keys present and `None` values (line 921) and passes it when
composing slide 2's prompt (line 1045).  `build_prompt_for_slide` does
`snippets = slide_2_context_snippets or {}` and then
`snippets.get(key, 'N/A')` for each key; the result is interpolated into the
`extra_instructions` fragment with `str.format`, under which a Python `None`
renders as the text `None`. -/

/-- The `slide_2_context_snippets` dictionary: all three keys are present;
a `none` field is a key holding Python `None`. -/
structure ContextSnippets where
  organic_os : Option String
  owned_campaign : Option String
  paid_partner : Option String
deriving DecidableEq, Repr

/-- The orchestrator's initial value (line 921). -/
def initialSlide2Context : ContextSnippets := ⟨none, none, none⟩

/-- Python `"{}".format(v)` for a string-or-None value. -/
def pyFormatOpt : Option String → String
  | some s => s
  | none => "None"

/-- Value interpolated for `{organic_os}`: `(slide_2_context_snippets or
{}).get('organic_os', 'N/A')` rendered by `str.format`. -/
def organicSlot : Option ContextSnippets → String
  | none => "N/A"
  | some c => pyFormatOpt c.organic_os

/-- Value interpolated for `{owned_campaign}`. -/
def ownedSlot : Option ContextSnippets → String
  | none => "N/A"
  | some c => pyFormatOpt c.owned_campaign

/-- Value interpolated for `{paid_partner}`. -/
def paidSlot : Option ContextSnippets → String
  | none => "N/A"
  | some c => pyFormatOpt c.paid_partner

/-- An apostrophe (used inside string literals of the source). -/
def apos : String := String.singleton (Char.ofNat 39)

/-- The formatted `extra_instructions` fragment of slide 2's prompt
(lines 548-558); it is embedded verbatim in the composed prompt
(line 612). -/
def extraInstructionsSlide2 (sn : Option ContextSnippets) : String :=
  "Synthesize information. For Installs, specify the primary driver (organic/owned/paid). Then add relevant context:\n- If organic driven, mention OS: "
    ++ organicSlot sn
    ++ "\n- If owned driven, mention top campaign: "
    ++ ownedSlot sn
    ++ "\n- If paid driven, mention media partner: "
    ++ paidSlot sn
    ++ "\nFill these details using the provided context snippets. State "
    ++ apos ++ "N/A" ++ apos ++ " if a snippet is missing or not applicable."

/-! ### `fetch_excel_data` (src/insights_automation.py lines 100-174)

The spreadsheet collaborator is modelled as a pure workbook value: each
sheet maps A1-style range strings to the grid of cell values the library
returns for them (address geometry is the library's concern), and the
defined-name table maps names to their destination strings.  Reading from a
workbook that has been closed raises in openpyxl's read-only mode; the one
code path that closes the workbook before reading is therefore modelled as
the exception path (caught by the function's handler, which returns None). -/

/-- Cell values as returned by openpyxl (`none` is Python `None`). -/
abbrev Grid := List (List (Option String))

/-- Association-list lookup (first match wins). -/
def lookupA {α : Type} (k : String) (l : List (String × α)) : Option α :=
  (l.find? (fun p => p.1 = k)).map (·.2)

/-- A workbook: sheets (name to range table) and defined names. -/
structure Workbook where
  sheets : List (String × List (String × Grid))
  definedNames : List (String × String)
deriving DecidableEq, Repr

/-- Split at the first `!` (Python `dest.split('!', 1)`), used only when a
`!` is present. -/
def splitBang : List Char → List Char × List Char
  | [] => ([], [])
  | c :: rest =>
      if c = '!' then ([], rest)
      else
        let p := splitBang rest
        (c :: p.1, p.2)

/-- Warning printed for a cross-sheet named range (line 141). -/
def warnCrossSheet : String := "Warning: Named range points to a different sheet. Ignoring."

/-- `sheet[range_str]` followed by the row/value collection loop; an invalid
range raises and is caught by the handler (`None` result). -/
def readRange (sheet : List (String × Grid)) (r : String) : Option Grid × List String :=
  match lookupA r sheet with
  | some g => (some g, [])
  | none => (none, ["Error reading Excel data"])

/-- The body of `fetch_excel_data` from the sheet lookup onward.  In the
cross-sheet branch the source warns and closes the workbook but does not
return; the subsequent `sheet[range_str]` access then raises on the closed
read-only workbook and the exception handler returns `None`. -/
def fetchCore (wb : Workbook) (sheetName : String)
    (excelRange rangeName : Option String) : Option Grid × List String :=
  match lookupA sheetName wb.sheets with
  | none => (none, ["Error: Sheet not found."])
  | some sheet =>
      match rangeName with
      | some rn =>
          match lookupA rn wb.definedNames with
          | none => (none, ["Error: Named range not found."])
          | some dest =>
              if dest.toList.any (· = '!') then
                let p := splitBang dest.toList
                if String.mk p.1 = sheetName then readRange sheet (String.mk p.2)
                else (none, [warnCrossSheet, "Error reading Excel data"])
              else readRange sheet dest
      | none =>
          match excelRange with
          | some er => readRange sheet er
          | none => (none, [])

/-- `fetch_excel_data(file_path, sheet_name, excel_range, range_name)` with
the filesystem modelled as an association of paths to workbooks; the three
leading guards follow the source order (lines 114-122). -/
def fetchFromFile (files : List (String × Workbook)) (filePath sheetName : String)
    (excelRange rangeName : Option String) : Option Grid × List String :=
  if excelRange.isNone && rangeName.isNone then
    (none, ["Error: Provide excel_range or range_name."])
  else if sheetName = "" then (none, ["Error: Sheet name not provided."])
  else
    match lookupA filePath files with
    | none => (none, ["Error: File not found."])
    | some wb => fetchCore wb sheetName excelRange rangeName

/-! ### Multi-range combination (`function_2_add_chart_data` lines 265-292)

Each range of `excel_ranges` is fetched independently; fetches returning
`None` are skipped; if any dataset remains, they are combined column-wise:
row `i` of the result concatenates row `i` of every dataset (with `None`
cells mapped to empty strings) and, for datasets with fewer than `i+1`
rows, a padding block of empty strings whose width is the dataset's first
row width (1 if that is zero). -/

/-- `col_counts[ds_idx] if col_counts[ds_idx] > 0 else 1` (lines 278, 288). -/
def padWidth (d : Grid) : ℕ :=
  match d with
  | [] => 1
  | r :: _ => if r.length = 0 then 1 else r.length

/-- `"" if v is None else v` (line 285). -/
def cellToStr : Option String → String
  | none => ""
  | some v => v

/-- `max(len(d) for d in datasets)` (line 277; the source evaluates it only
for a nonempty dataset list). -/
def maxRows (ds : List Grid) : ℕ := ds.foldr (fun d a => max d.length a) 0

/-- One combined row (the inner loop of lines 280-289). -/
def combineRow (ds : List Grid) (i : ℕ) : List String :=
  ds.flatMap (fun d =>
    match d[i]? with
    | some row => row.map cellToStr
    | none => List.replicate (padWidth d) "")

/-- The combined dataset (lines 279-290). -/
def combineDatasets (ds : List Grid) : List (List String) :=
  (List.range (maxRows ds)).map (combineRow ds)

/-! ### Chart data resolver (`function_2_add_chart_data` lines 177-323) -/

/-- The `excel_source` object of one mapping entry. -/
structure ExcelSource where
  sheet : Option String
  excel_range : Option String
  excel_ranges : Option (List String)
  range_name : Option String
  excel_file_path : Option String
deriving DecidableEq, Repr

/-- One entry of the mapping's `charts` list. -/
structure ChartDef where
  shape_name : Option String
  excel_source : ExcelSource
  title : Option String
  chart_type : Option String
deriving DecidableEq, Repr

/-- One chart identifier extracted from the slide (function 1). -/
structure FoundChart where
  name : Option String
  shape_id : ℕ
  title : Option String
deriving DecidableEq, Repr

/-- One element of `charts_excel_data` (lines 308-313).  `mapped_title`
models `matched_definition.get("title", found_chart.get("title", "N/A"))`
(the found chart always carries a `title` key, possibly `None`);
single-range data keeps raw cell values, multi-range data is the combined
string matrix injected via `some`. -/
structure ChartExcelData where
  identifier : String
  mapped_title : Option String
  mapped_type : String
  data : Grid
deriving DecidableEq, Repr

/-- Python truthiness of the `excel_ranges` value combined with the
`isinstance(..., (list, tuple))` test (line 265): present and nonempty. -/
def optListTruthy : Option (List String) → Bool
  | some (_ :: _) => true
  | _ => false

/-- The fetch performed for one matched chart (lines 262-304): the
multi-range branch with skip-on-None and column-wise combination, or the
single/named-range branch. -/
def doFetch (files : List (String × Workbook)) (filePath sheetName : String)
    (src : ExcelSource) : Option Grid :=
  if optListTruthy src.excel_ranges then
    let datasets := (src.excel_ranges.getD []).filterMap
      (fun r => (fetchFromFile files filePath sheetName (some r) none).1)
    match datasets with
    | [] => none
    | _ :: _ => some ((combineDatasets datasets).map (·.map some))
  else (fetchFromFile files filePath sheetName src.excel_range src.range_name).1

/-- The `chart_output` record appended for a successful fetch (lines
308-314). -/
def mkChartOutput (nm : String) (fc : FoundChart) (df : ChartDef) (d : Grid) :
    ChartExcelData :=
  { identifier := nm
    mapped_title := match df.title with | some t => some t | none => fc.title
    mapped_type := df.chart_type.getD "N/A"
    data := d }

/-- Processing of one found chart inside the matching loop (lines 226-316):
match by exact shape name (first mapping entry wins), determine the file,
require a sheet and a range form, fetch, and build the output entry; every
failure path skips the chart. -/
def resolveOne (files : List (String × Workbook)) (defaultPath : Option String)
    (defs : List ChartDef) (fc : FoundChart) : Option ChartExcelData :=
  match fc.name with
  | none => none
  | some nm =>
      match defs.find? (fun d => d.shape_name == some nm) with
      | none => none
      | some df =>
          let src := df.excel_source
          match src.excel_file_path.orElse (fun _ => defaultPath) with
          | none => none
          | some file =>
              match src.sheet with
              | none => none
              | some sheet =>
                  if src.excel_range.isSome || optListTruthy src.excel_ranges
                      || src.range_name.isSome then
                    match doFetch files file sheet src with
                    | some d => some (mkChartOutput nm fc df d)
                    | none => none
                  else none

/-- The `charts_excel_data` list produced for a slide (the loop of lines
226-321, guarded by the default-path check of lines 204-207). -/
def resolveCharts (files : List (String × Workbook)) (defaultPath : Option String)
    (defs : List ChartDef) (found : List FoundChart) : List ChartExcelData :=
  match defaultPath with
  | none => []
  | some _ => found.filterMap (resolveOne files defaultPath defs)

/-! ### Processing order (`generate_and_paste_insights` lines 926-931)

`slides_to_process = sorted([s for s in all if s in [3,4,5]]) +
sorted([s for s in all if s == 2]) + sorted([s for s in all if s not in
[2,3,4,5]])` where `all = range(1, n+1)` is already ascending, so each
`sorted` is the filtered list itself.  The per-slide body (extraction,
prompt composition, LLM call, parsing, context storage) runs once per list
element, in list order. -/

def processingOrder (n : ℕ) : List ℕ :=
  let all := List.range' 1 n
  (all.filter (fun s => s == 3 || s == 4 || s == 5))
    ++ (all.filter (fun s => s == 2))
    ++ (all.filter (fun s => !(s == 2 || s == 3 || s == 4 || s == 5)))

/-! ### Chart-to-textbox assignment on slides 7 and 10
(`generate_and_paste_insights` lines 970-990)

For each `(chart_key, textbox)` pair of `chart_textbox_map`, the source
scans `charts_on_slide` by index and takes the first index not yet in
`processed_chart_ids`; the guard is `match_condition and i not in
processed_chart_ids` where `match_condition = True` (line 981; the
name-comparison condition is commented out at line 980). -/

/-- `match_condition` (line 981). -/
def matchCondition (_key : String) (_i : ℕ) : Bool := true

/-- The inner scan over `enumerate(charts_on_slide)` (lines 975-987). -/
def pickNext (key : String) (n : ℕ) (used : List ℕ) : Option ℕ :=
  (List.range n).find? (fun i => matchCondition key i && !used.contains i)

/-- The outer loop over the chart-to-textbox map, threading
`processed_chart_ids`; each pair receives the dataset at the chosen index
(or none when no unused dataset remains). -/
def pickChartsGo {α : Type} (charts : List α) :
    List (String × String) → List ℕ → List (String × Option α)
  | [], _ => []
  | (k, tb) :: rest, used =>
      match pickNext k charts.length used with
      | some i => (tb, charts[i]?) :: pickChartsGo charts rest (i :: used)
      | none => (tb, none) :: pickChartsGo charts rest used

/-- Assignment of resolved datasets to the map's textboxes. -/
def pickCharts {α : Type} (pairs : List (String × String)) (charts : List α) :
    List (String × Option α) :=
  pickChartsGo charts pairs []

/-! ## Helper lemmas -/

theorem splitClose_length : ∀ {l b a : List Char}, splitClose l = some (b, a) → a.length < l.length := by
  intro l
  induction l with
  | nil => intro b a h; simp [splitClose] at h
  | cons c rest ih =>
      intro b a h
      simp only [splitClose] at h
      split at h
      · simp only [Option.some.injEq, Prod.mk.injEq] at h
        simp [← h.2, List.length_cons]
      · cases hx : splitClose rest with
        | none => rw [hx] at h; simp at h
        | some p =>
            rw [hx] at h
            simp only [Option.map_some', Option.some.injEq, Prod.mk.injEq] at h
            have := ih (b := p.1) (a := p.2) (by rw [hx])
            simp [← h.2, List.length_cons]
            omega

theorem splitClose_none : ∀ {l : List Char}, splitClose l = none → ']' ∉ l := by
  intro l
  induction l with
  | nil => intro _; simp
  | cons c rest ih =>
      intro h
      simp only [splitClose] at h
      split at h
      · simp at h
      · cases hx : splitClose rest with
        | none =>
            have h2 := ih hx
            rename_i hc
            intro hmem
            rcases List.mem_cons.mp hmem with he | hm
            · exact hc he.symm
            · exact h2 hm
        | some p => rw [hx] at h; simp at h

/-- The bracket-replacement scanner for `re.sub(r'\[[^\]]*\]', 'N/A', ·)`
(fuelled; any fuel of at least the input length is exact). -/
theorem any_close_eq_false {l : List Char} (h : ']' ∉ l) : l.any (· = ']') = false := by
  rw [Bool.eq_false_iff]
  intro hx
  rcases List.any_eq_true.mp hx with ⟨x, hmem, hp⟩
  exact h (by simpa using (decide_eq_true_eq.mp hp) ▸ hmem)

theorem noClose_hasOpenThenClose {l : List Char} (h : ']' ∉ l) :
    hasOpenThenClose l = false := by
  induction l with
  | nil => rfl
  | cons c rest ih =>
      have h1 : ']' ∉ rest := fun hm => h (List.mem_cons_of_mem _ hm)
      simp only [hasOpenThenClose, ih h1, Bool.or_false, any_close_eq_false h1,
        Bool.and_false]

theorem bracketScan_no_open_close :
    ∀ (fuel : ℕ) (l : List Char), l.length ≤ fuel →
      hasOpenThenClose (bracketScan fuel l) = false := by
  intro fuel
  induction fuel with
  | zero =>
      intro l h
      have hl : l = [] := List.eq_nil_of_length_eq_zero (Nat.le_zero.mp h)
      subst hl; rfl
  | succ f ih =>
      intro l h
      match l with
      | [] => rfl
      | c :: rest =>
          simp only [bracketScan]
          by_cases hc : c = '['
          · rw [if_pos hc]
            cases hx : splitClose rest with
            | some p =>
                have hlt := splitClose_length (l := rest) (b := p.1) (a := p.2)
                  (by rw [hx])
                have hlen : p.2.length ≤ f := by
                  simp only [List.length_cons] at h; omega
                simp [hasOpenThenClose, ih p.2 hlen]
            | none =>
                have hmem := splitClose_none (l := rest) hx
                have hany := any_close_eq_false hmem
                have hrest := noClose_hasOpenThenClose hmem
                subst hc
                simp [hasOpenThenClose, hany, hrest]
          · rw [if_neg hc]
            have hlen : rest.length ≤ f := by
              simp only [List.length_cons] at h; omega
            simp [hasOpenThenClose, hc, ih rest hlen]

/-! ## Claims -/

/-- C1: the claim states that composing slide 2's prompt with a context value
never populated by its producer slide puts the literal token `N/A` in that
slot.  In the code the orchestrator initialises all three keys of
`slide_2_context_snippets` to Python `None` (line 921), so
`snippets.get(key, 'N/A')` finds the key and returns `None`, which
`str.format` renders as the text `None`: every unpopulated slot of the
composed prompt reads `None`, not `N/A`.  The `N/A` default (and the
source's own instruction text) only fires when no dictionary is passed at
all, a path the orchestrator never takes for slide 2. -/
theorem c1_unpopulated_slot_renders_None :
    organicSlot (some initialSlide2Context) = "None"
  ∧ ownedSlot (some initialSlide2Context) = "None"
  ∧ paidSlot (some initialSlide2Context) = "None"
  ∧ strContains ("mention OS: None") (extraInstructionsSlide2 (some initialSlide2Context)) = true
  ∧ strContains ("mention OS: N/A") (extraInstructionsSlide2 (some initialSlide2Context)) = false
  ∧ organicSlot none = "N/A" := by
  decide

/-- C2 (counterexample): the claim expects `12450` to become `12.5K`, but the
code's thousands branch renders zero decimals (`f"{num/1000:.0f}K"`), so the
parsed narrative contains `12K` and never `12.5K`. -/
theorem c2_counterexample :
    strContains "12.5K"
      (parseLLMResponse 2
        (some "1. Installs rose +150% WoW at 12450.\nSummary Phrase: Strong paid growth")
        false).main_insight = false
  ∧ strContains "12K"
      (parseLLMResponse 2
        (some "1. Installs rose +150% WoW at 12450.\nSummary Phrase: Strong paid growth")
        false).main_insight = true := by
  decide

/-- C2 (amended): the end-to-end scenario with the abbreviation the code
actually produces: `+150% WoW` becomes `a significant increase`, `12450`
becomes `12K` (zero-decimal thousands form), and the summary phrase is
`Strong paid growth`. -/
theorem c2_parse_scenario :
    parseLLMResponse 2
      (some "1. Installs rose +150% WoW at 12450.\nSummary Phrase: Strong paid growth")
      false
    = ⟨"1. Installs rose a significant increase at 12K.",
        some "Strong paid growth", none⟩ := by
  decide

/-- C8 (counterexample): the bracket regex `\[[^\]]*\]` only rewrites
complete `[...]` tokens; an unmatched `]` survives every normalisation step,
so an input containing a bracketed placeholder can still yield a
`main_insight` containing `]`. -/
theorem c8_counterexample :
    (parseLLMResponse 7 (some "[x] stray ]") true).main_insight = "N/A stray ]"
  ∧ strContains "]"
      (parseLLMResponse 7 (some "[x] stray ]") true).main_insight = true := by
  decide

/-- C8 (amended): the bracket-replacement step (line 689, invoked by the
cleanup chain with this exact fuel) replaces every complete bracketed token,
so its output never contains a `[` that is followed by a later `]` — no
complete placeholder survives; unmatched bracket characters, however, are
left in place (see the counterexample). -/
theorem c8_no_complete_bracket_token (l : List Char) :
    hasOpenThenClose (bracketScan (l.length + 1) l) = false :=
  bracketScan_no_open_close (l.length + 1) l (Nat.le_succ _)

theorem ratAbs_le_iff (c : ℕ) (q : ℚ) :
    ((c : ℚ) ≤ |q|) ↔ (c * q.den ≤ q.num.natAbs) := by
  have hden : (0 : ℚ) < (q.den : ℚ) := by exact_mod_cast q.den_pos
  have hmul : q * (q.den : ℚ) = (q.num : ℚ) := by
    nth_rewrite 1 [← Rat.num_div_den q]
    exact div_mul_cancel₀ _ (ne_of_gt hden)
  have habs : |q| * (q.den : ℚ) = ((q.num.natAbs : ℕ) : ℚ) := by
    rw [← abs_of_pos hden, ← abs_mul, hmul, ← Int.cast_abs, Int.abs_eq_natAbs,
      Int.cast_natCast]
  constructor
  · intro h
    have h2 : (c : ℚ) * (q.den : ℚ) ≤ |q| * (q.den : ℚ) :=
      mul_le_mul_of_nonneg_right h hden.le
    rw [habs] at h2
    exact_mod_cast h2
  · intro h
    have h2 : ((c * q.den : ℕ) : ℚ) ≤ ((q.num.natAbs : ℕ) : ℚ) := by exact_mod_cast h
    rw [← habs] at h2
    push_cast at h2
    exact le_of_mul_le_mul_right h2 hden

/-- C3: the abbreviation branches of `format_large_number` follow the
claim's thresholds exactly: magnitude at least one million renders the value
divided by 1e6 with one decimal digit and an `M` suffix; magnitude in
[1000, 1000000) renders the value divided by 1000 with zero decimals and a
`K` suffix; below 1000 a whole value renders as a plain integer and a
fractional value with exactly one decimal digit (`renderOneDec _ 1`). -/
theorem c3_format_large_number (q : ℚ) :
    ((1000000 : ℚ) ≤ |q| → formatLargeNumber q = renderOneDec q 1000000 ++ "M")
  ∧ ((1000 : ℚ) ≤ |q| ∧ |q| < 1000000 →
      formatLargeNumber q = renderZeroDec q 1000 ++ "K")
  ∧ (|q| < 1000 ∧ q.den = 1 → formatLargeNumber q = intToStr q.num)
  ∧ (|q| < 1000 ∧ q.den ≠ 1 → formatLargeNumber q = renderOneDec q 1) := by
  have h6 := ratAbs_le_iff 1000000 q
  have h3 := ratAbs_le_iff 1000 q
  have e6 : ((1000000 : ℕ) : ℚ) = (1000000 : ℚ) := by norm_cast
  have e3 : ((1000 : ℕ) : ℚ) = (1000 : ℚ) := by norm_cast
  rw [e6] at h6
  rw [e3] at h3
  refine ⟨fun h => ?_, fun h => ?_, fun h => ?_, fun h => ?_⟩
  · unfold formatLargeNumber
    rw [if_pos (h6.mp h)]
  · unfold formatLargeNumber
    rw [if_neg (fun hc => absurd (h6.mpr hc) (not_le.mpr h.2)), if_pos (h3.mp h.1)]
  · unfold formatLargeNumber
    rw [if_neg (fun hc => absurd (h6.mpr hc) (not_le.mpr (lt_trans h.1 (by norm_num)))),
        if_neg (fun hc => absurd (h3.mpr hc) (not_le.mpr h.1)), if_pos h.2]
  · unfold formatLargeNumber
    rw [if_neg (fun hc => absurd (h6.mpr hc) (not_le.mpr (lt_trans h.1 (by norm_num)))),
        if_neg (fun hc => absurd (h3.mpr hc) (not_le.mpr h.1)), if_neg h.2]

/-- C3 (witness): the theorem applied at 2500000 (millions branch) and at
12450 (thousands branch). -/
theorem c3_format_large_number_witness :
    ((1000000 : ℚ) ≤ |intRat 2500000|
      ∧ formatLargeNumber (intRat 2500000) = renderOneDec (intRat 2500000) 1000000 ++ "M")
  ∧ ((1000 : ℚ) ≤ |intRat 12450| ∧ |intRat 12450| < 1000000)
  ∧ formatLargeNumber (intRat 12450) = renderZeroDec (intRat 12450) 1000 ++ "K" :=
  ⟨⟨by decide, (c3_format_large_number (intRat 2500000)).1 (by decide)⟩,
    ⟨by decide, by decide⟩,
    (c3_format_large_number (intRat 12450)).2.1 ⟨by decide, by decide⟩⟩

/-- C4: for every substring the percentage pattern matches,
`format_percentage` returns the original matched substring unchanged when
the numeric magnitude is at most 120, and exactly the qualitative phrase
matching the sign when the magnitude exceeds 120. -/
theorem c4_format_percentage (full : String) (num : ℚ) :
    (|num| ≤ 120 → formatPercentage full num = full)
  ∧ (120 < |num| → formatPercentage full num =
      if 0 < num then "a significant increase" else "a significant decrease") := by
  constructor
  · intro h
    unfold formatPercentage
    have h1 : ¬ (120 : ℚ) < num := not_lt.mpr (le_trans (le_abs_self num) h)
    have h2 : ¬ num < (-120 : ℚ) := by
      have := neg_abs_le num
      have := neg_le_neg h
      exact not_lt.mpr (by linarith)
    rw [if_neg h1, if_neg h2]
  · intro h
    unfold formatPercentage
    rcases lt_trichotomy num 0 with hn | hn | hn
    · have h1 : num < -120 := by
        have := abs_of_neg hn
        linarith [h.trans_le (le_of_eq (abs_of_neg hn))]
      rw [if_neg (by linarith), if_pos h1, if_neg (not_lt.mpr hn.le)]
    · subst hn
      simp at h
      linarith [h]
    · have h1 : (120 : ℚ) < num := by
        have := abs_of_pos hn
        linarith [h.trans_le (le_of_eq (abs_of_pos hn))]
      rw [if_pos h1, if_pos hn]

/-- C4 (witness): the theorem applied at +15 (within the band, unchanged)
and at +150 (outside the band, replaced by the increase phrase). -/
theorem c4_format_percentage_witness :
    (|intRat 15| ≤ 120 ∧ formatPercentage "+15% WoW" (intRat 15) = "+15% WoW")
  ∧ (120 < |intRat 150|
      ∧ formatPercentage "+150% WoW" (intRat 150)
        = if 0 < intRat 150 then "a significant increase" else "a significant decrease") :=
  ⟨⟨by decide, (c4_format_percentage "+15% WoW" (intRat 15)).1 (by decide)⟩,
    ⟨by decide, (c4_format_percentage "+150% WoW" (intRat 150)).2 (by decide)⟩⟩

theorem length_le_maxRows {ds : List Grid} {d : Grid} (hd : d ∈ ds) :
    d.length ≤ maxRows ds := by
  induction ds with
  | nil => cases hd
  | cons a t ih =>
      rcases List.mem_cons.mp hd with h | h
      · subst h
        exact le_max_left _ _
      · exact le_trans (ih h) (le_max_right _ _)

theorem combineRow_eq (ds : List Grid) (i : ℕ) :
    combineRow ds i = ds.flatMap (fun d =>
      if i < d.length then (d[i]?.getD []).map cellToStr
      else List.replicate (padWidth d) "") := by
  unfold combineRow
  congr 1
  funext d
  cases hd : d[i]? with
  | some row =>
      have hlt : i < d.length := by
        by_contra hge
        rw [List.getElem?_eq_none (Nat.le_of_not_lt hge)] at hd
        exact Option.noConfusion hd
      rw [if_pos hlt]
      rfl
  | none =>
      have hge : ¬ i < d.length := by
        intro hlt
        rw [List.getElem?_eq_getElem hlt] at hd
        exact Option.noConfusion hd
      rw [if_neg hge]

/-- C5: combining a nonempty list of fetched sub-range datasets yields
exactly `max(len(d))` rows (no dataset is ever truncated: each dataset's row
count is at most the combined row count, which equals the longest); and row
`i` is the concatenation, in list order, of row `i` of each sub-range
(`None` cells rendered as empty strings) where a dataset shorter than `i+1`
rows contributes a padding block of empty-string cells. -/
theorem c5_multi_range_combine (ds : List Grid) (hne : ds ≠ []) :
    (combineDatasets ds).length = maxRows ds
  ∧ (∀ d ∈ ds, d.length ≤ maxRows ds)
  ∧ (∀ i, i < maxRows ds →
      (combineDatasets ds)[i]? = some (ds.flatMap (fun d =>
        if i < d.length then (d[i]?.getD []).map cellToStr
        else List.replicate (padWidth d) ""))) := by
  refine ⟨by simp [combineDatasets], fun d hd => length_le_maxRows hd, fun i hi => ?_⟩
  unfold combineDatasets
  rw [List.getElem?_map, List.getElem?_range hi]
  simp [combineRow_eq]

/-- C5 (witness): the theorem applied to two datasets of 1 and 2 rows: the
combined dataset has 2 rows and row 1 pads the shorter dataset with an
empty-string cell. -/
theorem c5_multi_range_combine_witness :
    ([[[some "a"]], [[some "x"], [some "y"]]] : List Grid) ≠ []
  ∧ ((combineDatasets [[[some "a"]], [[some "x"], [some "y"]]]).length
        = maxRows [[[some "a"]], [[some "x"], [some "y"]]]
    ∧ (∀ d ∈ ([[[some "a"]], [[some "x"], [some "y"]]] : List Grid),
        d.length ≤ maxRows [[[some "a"]], [[some "x"], [some "y"]]])
    ∧ (∀ i, i < maxRows [[[some "a"]], [[some "x"], [some "y"]]] →
        (combineDatasets [[[some "a"]], [[some "x"], [some "y"]]])[i]?
          = some (([[[some "a"]], [[some "x"], [some "y"]]] : List Grid).flatMap
              (fun d =>
                if i < d.length then (d[i]?.getD []).map cellToStr
                else List.replicate (padWidth d) "")))) :=
  ⟨by decide, c5_multi_range_combine [[[some "a"]], [[some "x"], [some "y"]]] (by decide)⟩

/-- C6: when a named range's destination carries a sheet qualifier different
from the requested sheet, `fetch_excel_data` warns and fetches no data: the
source closes the read-only workbook before the subsequent cell access, so
that access raises and the handler returns `None`; no dataset is produced
for the range. -/
theorem c6_cross_sheet_named_range (wb : Workbook) (sheetName rn dest : String)
    (tbl : List (String × Grid))
    (hsheet : lookupA sheetName wb.sheets = some tbl)
    (hname : lookupA rn wb.definedNames = some dest)
    (hbang : dest.toList.any (· = '!') = true)
    (hdiff : String.mk (splitBang dest.toList).1 ≠ sheetName) :
    (fetchCore wb sheetName none (some rn)).1 = none
  ∧ warnCrossSheet ∈ (fetchCore wb sheetName none (some rn)).2 := by
  unfold fetchCore
  simp only [hsheet, hname, if_pos hbang, if_neg hdiff]
  simp [warnCrossSheet]

/-- C6 (witness): the theorem applied to a workbook whose defined name
`MyRange` points at sheet `Other` while sheet `Data` is requested. -/
theorem c6_cross_sheet_named_range_witness :
    (lookupA "Data"
        (Workbook.mk [("Data", [("A1:B2", [[some "1"]])])] [("MyRange", "Other!A1:B2")]).sheets
      = some [("A1:B2", [[some "1"]])]
    ∧ lookupA "MyRange"
        (Workbook.mk [("Data", [("A1:B2", [[some "1"]])])] [("MyRange", "Other!A1:B2")]).definedNames
      = some "Other!A1:B2"
    ∧ ("Other!A1:B2").toList.any (· = '!') = true
    ∧ String.mk (splitBang ("Other!A1:B2").toList).1 ≠ "Data")
  ∧ ((fetchCore (Workbook.mk [("Data", [("A1:B2", [[some "1"]])])] [("MyRange", "Other!A1:B2")])
        "Data" none (some "MyRange")).1 = none
    ∧ warnCrossSheet ∈
        (fetchCore (Workbook.mk [("Data", [("A1:B2", [[some "1"]])])] [("MyRange", "Other!A1:B2")])
          "Data" none (some "MyRange")).2) :=
  ⟨⟨by decide, by decide, by decide, by decide⟩,
    c6_cross_sheet_named_range
      (Workbook.mk [("Data", [("A1:B2", [[some "1"]])])] [("MyRange", "Other!A1:B2")])
      ("Data") ("MyRange") ("Other!A1:B2") ([("A1:B2", [[some "1"]])])
      (by decide) (by decide) (by decide) (by decide)⟩

/-- C7 (counterexample): a mapped chart whose range fetch succeeds with zero
rows is not dropped: `function_2_add_chart_data` appends an entry whenever
`excel_data is not None`, so the empty list (`fetch_excel_data`'s documented
result for an empty range) produces an entry with an empty data matrix. -/
theorem c7_counterexample :
    resolveCharts
      [("b", Workbook.mk [("S", [("R", [])])] [])]
      (some "b")
      [ChartDef.mk (some "C") (ExcelSource.mk (some "S") (some "R") none none none) none none]
      [FoundChart.mk (some "C") 1 none]
    = [ChartExcelData.mk "C" none "N/A" []] := by
  decide

/-- C7 (amended): a chart is dropped exactly when its fetch yields no
dataset at all (`None`): if the fetch fails the chart produces no entry, and
if it returns any dataset `d` — including a zero-row `d = []` — the chart is
kept with that data matrix. -/
theorem c7_zero_row_dataset_kept (files : List (String × Workbook)) (dp : String)
    (defs : List ChartDef) (found : List FoundChart) (fc : FoundChart)
    (nm : String) (df : ChartDef) (file sheet : String)
    (hmem : fc ∈ found)
    (hnm : fc.name = some nm)
    (hdf : defs.find? (fun d => d.shape_name == some nm) = some df)
    (hfile : df.excel_source.excel_file_path.orElse (fun _ => some dp) = some file)
    (hsheet : df.excel_source.sheet = some sheet)
    (hrange : (df.excel_source.excel_range.isSome
        || optListTruthy df.excel_source.excel_ranges
        || df.excel_source.range_name.isSome) = true) :
    (doFetch files file sheet df.excel_source = none →
        resolveOne files (some dp) defs fc = none)
  ∧ (∀ d, doFetch files file sheet df.excel_source = some d →
        mkChartOutput nm fc df d ∈ resolveCharts files (some dp) defs found) := by
  constructor
  · intro hfetch
    unfold resolveOne
    simp only [hnm, hdf, hfile, hsheet, if_pos hrange, hfetch]
  · intro d hfetch
    have hone : resolveOne files (some dp) defs fc = some (mkChartOutput nm fc df d) := by
      unfold resolveOne
      simp only [hnm, hdf, hfile, hsheet, if_pos hrange, hfetch]
    unfold resolveCharts
    exact List.mem_filterMap.mpr ⟨fc, hmem, hone⟩

/-- C7 (witness): the amended theorem applied to a one-chart setup whose
single range resolves to a zero-row grid; the second conjunct instantiated
at `d = []` puts the empty-data entry in the output. -/
theorem c7_zero_row_dataset_kept_witness :
    (FoundChart.mk (some "C") 1 none ∈ [FoundChart.mk (some "C") 1 none]
    ∧ (FoundChart.mk (some "C") 1 none).name = some "C"
    ∧ [ChartDef.mk (some "C") (ExcelSource.mk (some "S") (some "R") none none none) none
        none].find? (fun d => d.shape_name == some "C")
      = some (ChartDef.mk (some "C") (ExcelSource.mk (some "S") (some "R") none none none)
          none none))
  ∧ ((doFetch [("b", Workbook.mk [("S", [("R", [])])] [])] ("b") ("S")
        (ExcelSource.mk (some "S") (some "R") none none none) = none →
      resolveOne [("b", Workbook.mk [("S", [("R", [])])] [])] (some "b")
        [ChartDef.mk (some "C") (ExcelSource.mk (some "S") (some "R") none none none) none none]
        (FoundChart.mk (some "C") 1 none) = none)
    ∧ (∀ d, doFetch [("b", Workbook.mk [("S", [("R", [])])] [])] ("b") ("S")
          (ExcelSource.mk (some "S") (some "R") none none none) = some d →
        mkChartOutput ("C") (FoundChart.mk (some "C") 1 none)
            (ChartDef.mk (some "C") (ExcelSource.mk (some "S") (some "R") none none none)
              none none) d
          ∈ resolveCharts [("b", Workbook.mk [("S", [("R", [])])] [])] (some "b")
              [ChartDef.mk (some "C") (ExcelSource.mk (some "S") (some "R") none none none)
                none none]
              [FoundChart.mk (some "C") 1 none])) :=
  ⟨⟨by decide, by decide, by decide⟩,
    c7_zero_row_dataset_kept
      [("b", Workbook.mk [("S", [("R", [])])] [])] ("b")
      [ChartDef.mk (some "C") (ExcelSource.mk (some "S") (some "R") none none none) none none]
      [FoundChart.mk (some "C") 1 none]
      (FoundChart.mk (some "C") 1 none) ("C")
      (ChartDef.mk (some "C") (ExcelSource.mk (some "S") (some "R") none none none) none none)
      ("b") ("S")
      (by decide) (by decide) (by decide) (by decide) (by decide) (by decide)⟩

/-- C9: for a deck of at least 5 slides, the orchestrator's processing list
is exactly slides 3, 4, 5 (the context producers), then slide 2 (the
context consumer), then the remaining slides 1, 6, 7, ... in ascending
order.  The per-slide loop body composes each slide's prompt (and, for
slides 3-5, stores the parsed context snippet) within that slide's own
iteration, so slide 2's prompt is composed only after slides 3, 4 and 5
have completed. -/
theorem c9_processing_order (n : ℕ) (h : 5 ≤ n) :
    processingOrder n = 3 :: 4 :: 5 :: 2 :: 1 :: List.range' 6 (n - 5) := by
  obtain ⟨k, rfl⟩ := Nat.exists_eq_add_of_le h
  have hk : 5 + k - 5 = k := by omega
  rw [hk]
  have hsplit : List.range' 1 (5 + k) = [1, 2, 3, 4, 5] ++ List.range' 6 k := by
    rw [show 5 + k = k + 5 from Nat.add_comm 5 k, ← List.range'_append 1 5 k 1]
    rfl
  have hmem : ∀ x ∈ List.range' 6 k, 6 ≤ x := by
    intro x hx
    exact (List.mem_range'_1.mp hx).1
  simp only [processingOrder]
  rw [hsplit, List.filter_append, List.filter_append, List.filter_append]
  have f1 : (List.range' 6 k).filter (fun s => s == 3 || s == 4 || s == 5) = [] := by
    rw [List.filter_eq_nil]
    intro x hx
    have h6 := hmem x hx
    simp only [Bool.or_eq_true, beq_iff_eq, not_or]
    omega
  have f2 : (List.range' 6 k).filter (fun s => s == 2) = [] := by
    rw [List.filter_eq_nil]
    intro x hx
    have h6 := hmem x hx
    simp only [beq_iff_eq]
    omega
  have f3 : (List.range' 6 k).filter
      (fun s => !(s == 2 || s == 3 || s == 4 || s == 5)) = List.range' 6 k := by
    rw [List.filter_eq_self]
    intro x hx
    have h6 := hmem x hx
    simp only [Bool.not_eq_true', Bool.or_eq_false_iff, beq_eq_false_iff_ne, ne_eq]
    omega
  rw [f1, f2, f3]
  rfl

/-- C9 (witness): the theorem applied to an 11-slide deck. -/
theorem c9_processing_order_witness :
    5 ≤ 11 ∧ processingOrder 11 = 3 :: 4 :: 5 :: 2 :: 1 :: List.range' 6 (11 - 5) :=
  ⟨by decide, c9_processing_order 11 (by decide)⟩

theorem find_unused_range' (j n : ℕ) (used : List ℕ)
    (hused : ∀ i, i < n → used.contains i = decide (i < j)) :
    ∀ (len s : ℕ), s ≤ j → s + len ≤ n →
      (List.range' s len).find? (fun i => !used.contains i)
        = if j < s + len then some j else none := by
  intro len
  induction len with
  | zero =>
      intro s hs _
      rw [if_neg (by omega)]
      rfl
  | succ len ih =>
      intro s hs hn
      rw [List.range'_succ]
      by_cases hsj : s = j
      · subst hsj
        rw [List.find?_cons_of_pos _ (by
          rw [hused s (by omega)]
          simp)]
        rw [if_pos (by omega)]
      · have hlt : s < j := lt_of_le_of_ne hs hsj
        rw [List.find?_cons_of_neg _ (by
          rw [hused s (by omega)]
          simp [hlt])]
        rw [ih (s + 1) (by omega) (by omega)]
        have harith : s + 1 + len = s + (len + 1) := by omega
        rw [harith]

theorem pickNext_spec (key : String) (n j : ℕ) (used : List ℕ)
    (hused : ∀ i, i < n → used.contains i = decide (i < j)) :
    pickNext key n used = if j < n then some j else none := by
  unfold pickNext
  simp only [matchCondition, Bool.true_and]
  rw [List.range_eq_range']
  have hx := find_unused_range' j n used hused n 0 (Nat.zero_le j) (by omega)
  simpa using hx

theorem pickChartsGo_spec {α : Type} (charts : List α) :
    ∀ (pairs : List (String × String)) (j : ℕ) (used : List ℕ),
      (∀ i, i < charts.length → used.contains i = decide (i < j)) →
      pickChartsGo charts pairs used
        = (List.enumFrom j pairs).map (fun p => (p.2.2, charts[p.1]?)) := by
  intro pairs
  induction pairs with
  | nil => intro j used _; rfl
  | cons hd rest ih =>
      intro j used hused
      obtain ⟨k, tb⟩ := hd
      have hpick := pickNext_spec k charts.length j used hused
      by_cases hj : j < charts.length
      · rw [if_pos hj] at hpick
        have hused' : ∀ i, i < charts.length → (j :: used).contains i = decide (i < j + 1) := by
          intro i hi
          rw [List.contains_cons, hused i hi]
          by_cases h1 : i = j
          · subst h1
            simp
          · rw [beq_eq_false_iff_ne.mpr h1, Bool.false_or]
            have hiff : (i < j) ↔ (i < j + 1) := by omega
            simp [hiff]
        simp only [pickChartsGo, hpick]
        rw [ih (j + 1) (j :: used) hused']
        simp [List.enumFrom_cons]
      · rw [if_neg hj] at hpick
        have hused'' : ∀ i, i < charts.length → used.contains i = decide (i < j + 1) := by
          intro i hi
          rw [hused i hi]
          have hiff : (i < j) ↔ (i < j + 1) := by omega
          simp [hiff]
        simp only [pickChartsGo, hpick]
        rw [ih (j + 1) used hused'']
        have hnone : charts[j]? = none := List.getElem?_eq_none (by omega)
        simp [List.enumFrom_cons, hnone]

/-- C10: on the chart-driven slides the assignment of resolved datasets to
the textboxes of `chart_textbox_map` is purely positional: the j-th map
entry always receives the j-th dataset of the resolved list (or nothing
once the list is exhausted), for every choice of map keys and of dataset
contents — the map's chart-name key and the dataset identifiers never
influence the result, because the loop's `match_condition` is the constant
`True` and the commented-out name comparison is never evaluated. -/
theorem c10_positional_chart_assignment {α : Type}
    (pairs : List (String × String)) (charts : List α) :
    pickCharts pairs charts
      = (List.enum pairs).map (fun p => (p.2.2, charts[p.1]?)) := by
  unfold pickCharts
  rw [pickChartsGo_spec charts pairs 0 [] (by intro i _; simp)]
  rfl
